import Mathlib

/-
Verification of the hidive-pubs publication pipeline.

The development shallowly embeds the Deno/TypeScript scripts of the
repository:
  * the current script (part_003, first document): zod schema
    (`maybeStringSchema`, `zoteroItemSchema`), citation formatting
    (`formatAuthors`, `formatJournalInfo`, `formatZoteroItem`,
    `formatCitation`), CSV export (`toCsv`), paginated collection fetch
    (`fetchZoteroCollection`), DOI-to-PubMed resolution (`getPubMedIds`)
    and the `main` driver;
  * the older keys-based script (part_001): its `main` with the
    cross-collection overlap assertion, and its formatter variants.

Modelling conventions:
  * JS `string | undefined` fields become `Option String`; JS truthiness
    of such a field is `truthy` (absent and the empty string are falsy).
  * Functions that can throw return `Except String`; the single
    `console.error` diagnostic of `formatJournalInfo` is modelled as a
    `Bool` flag paired with the result.
  * Network effects are abstracted into explicit environment functions
    (page contents, NCBI responses); everything downstream of them is
    translated from the source.
  * `Array.prototype.toSorted` with a comparator is, by the ECMAScript
    specification, a stable sort consistent with the comparator; it is
    modelled by `List.mergeSort` (stable) over the comparator-induced
    total preorder.
-/

deriving instance DecidableEq for Except

namespace HidivePubs

/-! ## JS string and truthiness helpers -/

/-- JS `String.prototype.includes` (code-unit substring test; the scripts
only probe ASCII needles). -/
def jsIncludes (s sub : String) : Bool :=
  s.toList.tails.any fun t => sub.toList.isPrefixOf t

/-- JS truthiness of a `string | undefined` value: `undefined` and `""`
are falsy, every other string is truthy. -/
def truthy : Option String → Bool
  | none => false
  | some s => s != ""

/-! ## Data model (zod schema of part_003, first document) -/

/-- A creator, per the `creators` union schema: either an organizational
creator carrying a single `name`, or a person with `firstName` and
`lastName`.  The JS code discriminates with `"name" in author`. -/
inductive Creator where
  | org (creatorType : String) (name : String)
  | person (creatorType : String) (firstName : String) (lastName : String)
deriving DecidableEq, Repr

def Creator.creatorType : Creator → String
  | .org t _ => t
  | .person t _ _ => t

/-- The `csljson.issued` value after the schema transform:
`{ year: parts[0], month: parts[1], day: parts[2] }`. -/
structure DateParts where
  year : Int
  month : Option Int
  day : Option Int
deriving DecidableEq, Repr

/-- A normalized Zotero item: the `data` object spread together with the
transformed `date`. -/
structure ZoteroItem where
  key : String
  version : Nat
  itemType : String
  title : String
  creators : List Creator
  abstractNote : String
  institution : Option String
  bookTitle : Option String
  proceedingsTitle : Option String
  publicationTitle : Option String
  volume : Option String
  issue : Option String
  pages : Option String
  series : Option String
  seriesTitle : Option String
  seriesText : Option String
  journalAbbreviation : Option String
  DOI : Option String
  ISSN : Option String
  shortTitle : Option String
  url : Option String
  date : DateParts
deriving DecidableEq, Repr

/-- `maybeStringSchema`: an optional string transformed to `undefined`
when it is the empty string. -/
def maybeStringSchema : Option String → Option String
  | none => none
  | some s => if s = "" then none else some s

/-- The `abstractNote` transform `value.replace(/^Abstract\s+/, "")`:
strip a leading `"Abstract"` followed by at least one whitespace
character, together with the whole whitespace run. -/
def stripAbstract (s : String) : String :=
  let cs := s.toList
  if cs.take 8 = "Abstract".toList then
    let rest := cs.drop 8
    if rest.takeWhile Char.isWhitespace = [] then s
    else String.mk (rest.dropWhile Char.isWhitespace)
  else s

/-- The `csljson.issued` parse: the `date-parts` array (entries already
converted to numbers; NaN-producing entries are outside the model) must
have exactly one element (`refine`, "Too many dates"), whose positions
0/1/2 become year/month/day.  A missing year position is likewise outside
the model. -/
def parseIssued (dateParts : List (List Int)) : Option DateParts :=
  match dateParts with
  | [parts] =>
    match parts[0]? with
    | some y => some { year := y, month := parts[1]?, day := parts[2]? }
    | none => none
  | _ => none

/-- The raw `data` object of one item envelope, before normalization.
Required fields are already typed (records failing zod type checks are
rejected upstream and outside these claims). -/
structure RawItemData where
  key : String
  version : Nat
  itemType : String
  title : String
  creators : List Creator
  abstractNote : String
  institution : Option String
  bookTitle : Option String
  proceedingsTitle : Option String
  publicationTitle : Option String
  volume : Option String
  issue : Option String
  pages : Option String
  series : Option String
  seriesTitle : Option String
  seriesText : Option String
  journalAbbreviation : Option String
  DOI : Option String
  ISSN : Option String
  shortTitle : Option String
  url : Option String
deriving DecidableEq, Repr

/-- `zoteroItemSchema`: normalize one raw envelope (`data` plus
`csljson.issued` date-parts) into a `ZoteroItem`. -/
def parseZoteroItem (raw : RawItemData) (issued : List (List Int)) : Option ZoteroItem :=
  (parseIssued issued).map fun date =>
    { key := raw.key
      version := raw.version
      itemType := raw.itemType
      title := raw.title
      creators := raw.creators
      abstractNote := stripAbstract raw.abstractNote
      institution := maybeStringSchema raw.institution
      bookTitle := maybeStringSchema raw.bookTitle
      proceedingsTitle := maybeStringSchema raw.proceedingsTitle
      publicationTitle := maybeStringSchema raw.publicationTitle
      volume := maybeStringSchema raw.volume
      issue := maybeStringSchema raw.issue
      pages := maybeStringSchema raw.pages
      series := maybeStringSchema raw.series
      seriesTitle := maybeStringSchema raw.seriesTitle
      seriesText := maybeStringSchema raw.seriesText
      journalAbbreviation := maybeStringSchema raw.journalAbbreviation
      DOI := maybeStringSchema raw.DOI
      ISSN := maybeStringSchema raw.ISSN
      shortTitle := maybeStringSchema raw.shortTitle
      url := maybeStringSchema raw.url
      date := date }

/-! ## Citation formatting (part_003, first document) -/

/-- The `it` helper: markdown emphasis in rich mode. -/
def itWrap (rich : Bool) (text : String) : String :=
  if rich then "*" ++ text ++ "*" else text

/-- The `b` helper: markdown bold in rich mode. -/
def bWrap (rich : Bool) (text : String) : String :=
  if rich then "**" ++ text ++ "**" else text

/-- `firstName.match(/[A-Z]/g)` joined with `""`: the capital ASCII
letters of the first name, in order. -/
def capitalInitials (firstName : String) : String :=
  String.mk (firstName.toList.filter fun c => decide ('A' ≤ c ∧ c ≤ 'Z'))

/-- Rendering of a single creator inside `formatAuthors`. -/
def formatAuthor (rich : Bool) (author : Creator) : String :=
  match author with
  | .org _ name => itWrap rich name
  | .person _ firstName lastName => capitalInitials firstName ++ " " ++ lastName

/-- `formatAuthors`: keep only `creatorType === "author"`, render each
creator, join two authors with `" and "` and any other count with
`", "`. -/
def formatAuthors (rich : Bool) (authors : List Creator) : String :=
  let formatted := (authors.filter fun a => a.creatorType == "author").map (formatAuthor rich)
  if formatted.length = 2 then String.intercalate " and " formatted
  else String.intercalate ", " formatted

/-- The message of a failed `assert` from `jsr:@std/assert`. -/
def assertionError : String := "AssertionError"

/-- Whether `meta.url?.includes(sub)` is truthy. -/
def urlIncludes (url : Option String) (sub : String) : Bool :=
  match url with
  | some u => jsIncludes u sub
  | none => false

/-- `formatJournalInfo`: venue rendering branched on `itemType`.
Returns the venue string paired with a flag recording whether the
`console.error("Unhandled item type", meta)` diagnostic fired; a failed
`assert` is an `Except.error`. -/
def formatJournalInfo (rich : Bool) (meta : ZoteroItem) : Except String (String × Bool) :=
  if meta.itemType = "thesis" then .ok (itWrap rich "Thesis", false)
  else if meta.itemType = "preprint" then
    if urlIncludes meta.url "arxiv" then .ok (itWrap rich "arXiv", false)
    else if urlIncludes meta.url "biorxiv" then .ok (itWrap rich "bioRxiv", false)
    else if urlIncludes meta.url "medrxiv" then .ok (itWrap rich "medRxiv", false)
    else if urlIncludes meta.url "osf.io" then .ok (itWrap rich "OSF Preprints", false)
    else if urlIncludes meta.url "ssrn" then .ok (itWrap rich "SSRN Preprints", false)
    else .ok (itWrap rich "Preprint", false)
  else if truthy meta.publicationTitle then
    if meta.itemType ≠ "journalArticle" then .error assertionError
    else
      let citation := itWrap rich (meta.publicationTitle.getD "")
      let citation :=
        if truthy meta.volume then citation ++ " " ++ bWrap rich (meta.volume.getD "")
        else citation
      let citation :=
        if truthy meta.issue then citation ++ "(" ++ meta.issue.getD "" ++ ")"
        else citation
      let citation :=
        if truthy meta.pages then
          citation ++ (if truthy meta.issue || truthy meta.volume then ":" else " ")
            ++ meta.pages.getD ""
        else citation
      .ok (citation, false)
  else if truthy meta.proceedingsTitle then
    if meta.itemType ≠ "conferencePaper" then .error assertionError
    else .ok (itWrap rich (meta.proceedingsTitle.getD ""), false)
  else if truthy meta.bookTitle then
    if meta.itemType ≠ "bookSection" then .error assertionError
    else .ok (itWrap rich (meta.bookTitle.getD "") ++ " (Book)", false)
  else if truthy meta.institution then
    if meta.itemType ≠ "report" then .error assertionError
    else
      .ok (itWrap rich (meta.institution.getD "")
        ++ (if truthy meta.pages then " " ++ meta.pages.getD "" else ""), false)
  else .ok ("", true)

/-- The projection returned by `formatZoteroItem`. -/
structure FormattedItem where
  title : String
  authors : String
  published : String
  year : Int
deriving DecidableEq, Repr

/-- `formatZoteroItem`: title, author list, venue and year, with the
diagnostic flag threaded through. -/
def formatZoteroItem (rich : Bool) (item : ZoteroItem) : Except String (FormattedItem × Bool) :=
  (formatJournalInfo rich item).map fun r =>
    ({ title := item.title
       authors := formatAuthors rich item.creators
       published := r.1
       year := item.date.year }, r.2)

/-- `formatCitation`: `<authors>, "<title>", <venue> (<year>).` in plain
(non-rich) mode. -/
def formatCitation (item : ZoteroItem) : Except String String :=
  (formatZoteroItem false item).map fun r =>
    r.1.authors ++ ", \"" ++ r.1.title ++ "\", " ++ r.1.published
      ++ " (" ++ toString r.1.year ++ ")."

/-! ## DOI to PubMed resolution (`getPubMedIds`) -/

/-- One record of the NCBI ID-converter response
(`{ doi: string, pmid?: string }`). -/
structure NcbiRecord where
  doi : String
  pmid : Option String
deriving DecidableEq, Repr

/-- JS plain-object assignment `records[k] = v` on a string map, modelled
as an association list: an existing key is overwritten in place,
otherwise the pair is appended. -/
def upsert (records : List (String × String)) (k v : String) : List (String × String) :=
  if records.any fun p => p.1 == k then
    records.map fun p => if p.1 == k then (k, v) else p
  else records ++ [(k, v)]

/-- JS map lookup `records[k]`. -/
def lookupRecord (records : List (String × String)) (k : String) : Option String :=
  (records.find? fun p => p.1 == k).map Prod.snd

/-- The response-processing loop body of `getPubMedIds`:
`if (record.pmid) records[record.doi] = record.pmid` over one batch
response (truthiness: a missing or empty `pmid` is skipped). -/
def addRecords (records : List (String × String)) (rs : List NcbiRecord) :
    List (String × String) :=
  rs.foldl (fun recs r =>
    match r.pmid with
    | some pmid => if pmid = "" then recs else upsert recs r.doi pmid
    | none => recs) records

/-- The batch slices `dois.slice(i, i + batchSize)` for
`i = 0, batchSize, 2*batchSize, ...` while `i < dois.length`.  Fuel-based
so that it computes by kernel reduction; `l.length` steps always suffice
for a positive batch size (the scripts only use the default 100). -/
def chunkedGo (batchSize : Nat) : Nat → List α → List (List α)
  | 0, _ => []
  | _, [] => []
  | fuel + 1, x :: xs => (x :: xs).take batchSize :: chunkedGo batchSize fuel ((x :: xs).drop batchSize)

def chunked (batchSize : Nat) (l : List α) : List (List α) :=
  chunkedGo batchSize l.length l

/-- `getPubMedIds`: query the ID-converter service in batches and retain
only records whose `pmid` is truthy.  The network call is abstracted into
`service`, mapping the requested DOI batch to the parsed response
records. -/
def getPubMedIds (service : List String → List NcbiRecord) (dois : List String)
    (batchSize : Nat) : List (String × String) :=
  (chunked batchSize dois).foldl (fun records batch => addRecords records (service batch)) []

/-! ## Export sort (`toSorted` by synthesized date, descending) -/

/-- The year as interpreted by `new Date(year, month)`: integer years 0
through 99 are treated as 1900 through 1999. -/
def jsDateYear (year : Int) : Int :=
  if 0 ≤ year ∧ year ≤ 99 then 1900 + year else year

/-- The month index of `new Date(a.date.year, a.date.month ?? 0)` on the
calendar timeline; within the representable date range, `getTime()` is
strictly monotone in this value. -/
def jsMonthIndex (date : DateParts) : Int :=
  jsDateYear date.year * 12 + date.month.getD 0

/-- TimeClip: a JS `Date` only represents instants within 8.64e15 ms of
the epoch, i.e. -271821-04-20 through +275760-09-13.  `new Date(y, m)`
names the first of its month, so its time value is a number exactly when
the month index lies between May -271821 and September 275760 (the
first-of-month boundary instants sit more than eleven days inside the
limits, so a local-time offset never moves these month bounds); outside
this range `getTime()` is NaN. -/
def jsDateInRange (date : DateParts) : Prop :=
  -271821 * 12 + 4 ≤ jsMonthIndex date ∧ jsMonthIndex date ≤ 275760 * 12 + 8

instance (date : DateParts) : Decidable (jsDateInRange date) := by
  unfold jsDateInRange
  infer_instance

/-- The relation induced by the comparator
`dateB.getTime() - dateA.getTime()`: `a` may come before `b` when the
comparator value is not positive.  When either date is invalid the
subtraction is NaN, which the sort coerces to `+0` — a tie.  (For inputs
mixing invalid dates with distinct valid ones the comparator is
inconsistent and the ECMAScript sort order is implementation-defined;
`mergeSort` below is this model's concrete implementation, and the
theorems only describe runs whose dates are all representable.) -/
def dateDescLE (a b : DateParts) : Bool :=
  if jsDateInRange a ∧ jsDateInRange b then decide (jsMonthIndex b ≤ jsMonthIndex a)
  else true

/-- `items.toSorted((a, b) => dateB.getTime() - dateA.getTime())`: a
stable sort by the comparator. -/
def sortByDateDesc (dateOf : α → DateParts) (items : List α) : List α :=
  items.mergeSort fun a b => dateDescLE (dateOf a) (dateOf b)

/-! ## CSV export (`toCsv`) -/

/-- An item enriched with the optional PubMed id
(`{ pmid: idMap[item.DOI as string], ...item }`). -/
structure EnrichedItem extends ZoteroItem where
  pmid : Option String
deriving DecidableEq, Repr

/-- One row of the CSV export, in `Object.keys` order
`Month, Year, Citation, PubMed ID, DOI`. -/
structure CsvRow where
  month : Option Int
  year : Int
  citation : String
  pubMedId : Option String
  doi : Option String
deriving DecidableEq, Repr

def csvColumns : List String := ["Month", "Year", "Citation", "PubMed ID", "DOI"]

/-- One CSV cell per `@std/csv` `stringify`: quote when the value
contains the separator, a quote or a line break, doubling quotes. -/
def csvCell (s : String) : String :=
  if s.toList.any fun c => decide (c = ',' ∨ c = '"' ∨ c = '\n' ∨ c = '\r') then
    "\"" ++ String.mk (s.toList.foldr (fun c acc => if c = '"' then '"' :: '"' :: acc else c :: acc) []) ++ "\""
  else s

/-- `undefined` serializes as the empty cell, numbers via `String()`. -/
def csvCellOfOptionalInt : Option Int → String
  | none => ""
  | some n => toString n

def csvRowValues (r : CsvRow) : List String :=
  [csvCellOfOptionalInt r.month, toString r.year, r.citation,
   r.pubMedId.getD "", r.doi.getD ""]

def csvLine (vals : List String) : String :=
  String.intercalate "," (vals.map csvCell) ++ "\r\n"

/-- `stringify(rows, { columns })` for our fixed row shape. -/
def csvStringify (rows : List CsvRow) : String :=
  csvLine csvColumns ++ String.join (rows.map fun r => csvLine (csvRowValues r))

/-- The `TypeError` thrown by `Object.keys(rows[0])` when `rows` is
empty. -/
def csvEmptyError : String := "TypeError: Cannot convert undefined or null to object"

/-- The row builder inside `toCsv`; `formatCitation` may throw. -/
def mkCsvRow (pub : EnrichedItem) : Except String CsvRow :=
  (formatCitation pub.toZoteroItem).map fun citation =>
    { month := pub.date.month
      year := pub.date.year
      citation := citation
      pubMedId := pub.pmid
      doi := pub.DOI }

/-- `toCsv`: build the rows, then derive the column list from
`Object.keys(rows[0])` — which throws on an empty row list. -/
def toCsv (pubs : List EnrichedItem) : Except String String := do
  let rows ← pubs.mapM mkCsvRow
  match rows with
  | [] => .error csvEmptyError
  | _ :: _ => pure (csvStringify rows)

/-! ## JSON export (`JSON.stringify(withPubMedIds, null, 2)`),
compact rendering (indentation is not modelled; no claim inspects this
text). -/

def jsonEscape (s : String) : String :=
  String.mk (s.toList.foldr (fun c acc =>
    if c = '"' ∨ c = '\\' then '\\' :: c :: acc
    else if c = '\n' then '\\' :: 'n' :: acc
    else c :: acc) [])

def jsonStr (s : String) : String := "\"" ++ jsonEscape s ++ "\""

def jsonField (name : String) (value : String) : List String :=
  [jsonStr name ++ ":" ++ value]

/-- `undefined`-valued properties are dropped by `JSON.stringify`. -/
def jsonOptField (name : String) : Option String → List String
  | none => []
  | some v => jsonField name (jsonStr v)

def jsonOptIntField (name : String) : Option Int → List String
  | none => []
  | some v => jsonField name (toString v)

def jsonObj (fields : List String) : String :=
  "\x7b" ++ String.intercalate "," fields ++ "\x7d"

def jsonArr (elems : List String) : String :=
  "[" ++ String.intercalate "," elems ++ "]"

def jsonCreator : Creator → String
  | .org t name => jsonObj (jsonField "creatorType" (jsonStr t) ++ jsonField "name" (jsonStr name))
  | .person t f l =>
    jsonObj (jsonField "creatorType" (jsonStr t) ++ jsonField "firstName" (jsonStr f)
      ++ jsonField "lastName" (jsonStr l))

def jsonDate (d : DateParts) : String :=
  jsonObj (jsonField "year" (toString d.year) ++ jsonOptIntField "month" d.month
    ++ jsonOptIntField "day" d.day)

def jsonItemFields (item : ZoteroItem) : List String :=
  jsonField "key" (jsonStr item.key)
    ++ jsonField "version" (toString item.version)
    ++ jsonField "itemType" (jsonStr item.itemType)
    ++ jsonField "title" (jsonStr item.title)
    ++ jsonField "creators" (jsonArr (item.creators.map jsonCreator))
    ++ jsonField "abstractNote" (jsonStr item.abstractNote)
    ++ jsonOptField "institution" item.institution
    ++ jsonOptField "bookTitle" item.bookTitle
    ++ jsonOptField "proceedingsTitle" item.proceedingsTitle
    ++ jsonOptField "publicationTitle" item.publicationTitle
    ++ jsonOptField "volume" item.volume
    ++ jsonOptField "issue" item.issue
    ++ jsonOptField "pages" item.pages
    ++ jsonOptField "series" item.series
    ++ jsonOptField "seriesTitle" item.seriesTitle
    ++ jsonOptField "seriesText" item.seriesText
    ++ jsonOptField "journalAbbreviation" item.journalAbbreviation
    ++ jsonOptField "DOI" item.DOI
    ++ jsonOptField "ISSN" item.ISSN
    ++ jsonOptField "shortTitle" item.shortTitle
    ++ jsonOptField "url" item.url
    ++ jsonField "date" (jsonDate item.date)

/-- One element of `withPubMedIds`: `{ pmid, ...item }` puts `pmid`
first in property order. -/
def jsonEnriched (e : EnrichedItem) : String :=
  jsonObj (jsonOptField "pmid" e.pmid ++ jsonItemFields e.toZoteroItem)

def papersJson (items : List EnrichedItem) : String :=
  jsonArr (items.map jsonEnriched)

/-! ## Paginated collection fetch (`fetchZoteroCollection`) -/

/-- One iteration step of the `while (true)` pagination loop, with
explicit fuel (the loop itself has no bound; termination claims quantify
the fuel).  `pageAt start` is the raw JSON array served for offset
`start` (already shaped; a `zoteroItemSchema` parse failure aborts the
run and is outside this claim).  Note items are filtered out before
parsing, but the stop test uses the raw page length. -/
def fetchLoop (pageAt : Nat → List ZoteroItem) (itemsPerPage : Nat) :
    Nat → Nat → List ZoteroItem → Option (List ZoteroItem)
  | 0, _, _ => none
  | fuel + 1, start, items =>
    let json := pageAt start
    let newItems := json.filter fun item => item.itemType != "note"
    let items := items ++ newItems
    if json.length < itemsPerPage then some items
    else fetchLoop pageAt itemsPerPage fuel (start + itemsPerPage) items

/-- `fetchZoteroCollection`: pages of 100 starting at offset 0;
`some items` when the loop finishes within `fuel` iterations. -/
def fetchZoteroCollection (pageAt : Nat → List ZoteroItem) (fuel : Nat) :
    Option (List ZoteroItem) :=
  fetchLoop pageAt 100 fuel 0 []

/-! ## The current `main` driver (part_003, first document) -/

/-- The environment of one run: the two fetched collections (publications
and preprints, in fetch order) and the NCBI converter service. -/
structure ZoteroEnv where
  pubs : List ZoteroItem
  preprints : List ZoteroItem
  ncbi : List String → List NcbiRecord

/-- `pmid: idMap[item.DOI as string]` — a JS member access with an
`undefined` key coerces the key to the string `"undefined"`. -/
def attachPmid (idMap : List (String × String)) (item : ZoteroItem) : EnrichedItem :=
  ⟨item, lookupRecord idMap (item.DOI.getD "undefined")⟩

/-- `main` of the current script: fetch both collections, resolve PubMed
ids, sort, then write `papers.json`, `pubs.csv`, `preprints.csv` in that
order.  The result is the list of files actually written (name and
content, in write order) paired with the outcome; a thrown error stops
the run after the writes already performed. -/
def mainCurrent (env : ZoteroEnv) : List (String × String) × Except String Unit :=
  let items := env.pubs ++ env.preprints
  let dois := items.filterMap fun item => item.DOI
  let idMap := getPubMedIds env.ncbi dois 100
  let withPubMedIds := (sortByDateDesc (fun item => item.date) items).map (attachPmid idMap)
  let writes := [("papers.json", papersJson withPubMedIds)]
  match toCsv (withPubMedIds.filter fun p => p.itemType != "preprint") with
  | .error e => (writes, .error e)
  | .ok pubsCsv =>
    let writes := writes ++ [("pubs.csv", pubsCsv)]
    match toCsv (withPubMedIds.filter fun p => p.itemType == "preprint") with
    | .error e => (writes, .error e)
    | .ok preprintsCsv => (writes ++ [("preprints.csv", preprintsCsv)], .ok ())

/-! ## The older keys-based script (part_001) -/

/-- A part_001 item: the same normalized `data` fields plus the parsed
`bib` entry. -/
structure ZoteroItemV1 extends ZoteroItem where
  bib : String
deriving DecidableEq, Repr

/-- part_001 `formatAuthors`: no `creatorType` filter and no rich
mode. -/
def formatAuthorsV1 (authors : List Creator) : String :=
  let formatted := authors.map fun author =>
    match author with
    | .org _ name => name
    | .person _ firstName lastName => capitalInitials firstName ++ " " ++ lastName
  if formatted.length = 2 then String.intercalate " and " formatted
  else String.intercalate ", " formatted

/-- part_001 `formatJournalInfo`: no asserts, no diagnostics, the `osf`
needle (not `osf.io`) and no SSRN branch; an item that is neither a
thesis nor a preprint and has no truthy `publicationTitle` renders the
empty venue. -/
def formatJournalInfoV1 (meta : ZoteroItemV1) : String :=
  if meta.itemType = "thesis" then "Thesis"
  else if meta.itemType = "preprint" then
    if urlIncludes meta.url "arxiv" then "arXiv"
    else if urlIncludes meta.url "biorxiv" then "bioRxiv"
    else if urlIncludes meta.url "medrxiv" then "medRxiv"
    else if urlIncludes meta.url "osf" then "OSF Preprints"
    else "Preprint"
  else if truthy meta.publicationTitle = false then ""
  else
    let citation := meta.publicationTitle.getD ""
    let citation :=
      if truthy meta.volume then citation ++ " " ++ meta.volume.getD "" else citation
    let citation :=
      if truthy meta.issue then citation ++ "(" ++ meta.issue.getD "" ++ ")" else citation
    if truthy meta.pages then
      citation ++ (if truthy meta.issue || truthy meta.volume then ":" else " ")
        ++ meta.pages.getD ""
    else citation

/-- part_001 `formatCitation` (total: no assert can fire). -/
def formatCitationV1 (meta : ZoteroItemV1) : String :=
  formatAuthorsV1 meta.creators ++ ", \"" ++ meta.title ++ "\", "
    ++ formatJournalInfoV1 meta ++ " (" ++ toString meta.date.year ++ ")."

structure EnrichedItemV1 extends ZoteroItemV1 where
  pmid : Option String
deriving DecidableEq, Repr

def mkCsvRowV1 (pub : EnrichedItemV1) : CsvRow :=
  { month := pub.date.month
    year := pub.date.year
    citation := formatCitationV1 pub.toZoteroItemV1
    pubMedId := pub.pmid
    doi := pub.DOI }

/-- part_001 `toCsv`: same `Object.keys(rows[0])` throw on an empty row
list. -/
def toCsvV1 (pubs : List EnrichedItemV1) : Except String String :=
  match pubs.map mkCsvRowV1 with
  | [] => .error csvEmptyError
  | rows => .ok (csvStringify rows)

def jsonEnrichedV1 (e : EnrichedItemV1) : String :=
  jsonObj (jsonOptField "pmid" e.pmid ++ jsonItemFields e.toZoteroItem
    ++ jsonField "bib" (jsonStr e.bib))

def papersJsonV1 (items : List EnrichedItemV1) : String :=
  jsonArr (items.map jsonEnrichedV1)

/-- The environment of one part_001 run: the two fetched key sets (JS
`Set` values, listed in insertion order), the per-key item fetch
(`none` when both the attempt and its single retry failed, in which
case the item is logged and dropped), and the NCBI service. -/
structure EnvV1 where
  pubKeys : List String
  preprintKeys : List String
  fetchItem : String → Option ZoteroItemV1
  ncbi : List String → List NcbiRecord

/-- `pubIds.intersection(preprintIds)` as a list of shared keys. -/
def overlapKeysV1 (env : EnvV1) : List String :=
  env.pubKeys.filter fun k => env.preprintKeys.contains k

def attachPmidV1 (idMap : List (String × String)) (item : ZoteroItemV1) : EnrichedItemV1 :=
  ⟨item, lookupRecord idMap (item.DOI.getD "undefined")⟩

/-- Everything part_001 `main` does after its overlap assertion:
fetch the items key by key (dropping doubly-failed fetches), resolve
PubMed ids, sort, and write `pubs.json`, `pubs.csv`, `preprints.csv`. -/
def pipelineV1 (env : EnvV1) : List (String × String) × Except String Unit :=
  let itemKeys := env.pubKeys ++ env.preprintKeys
  let items := itemKeys.filterMap env.fetchItem
  let dois := items.filterMap fun item => item.DOI
  let idMap := getPubMedIds env.ncbi dois 100
  let final := (sortByDateDesc (fun item => item.date) items).map (attachPmidV1 idMap)
  let writes := [("pubs.json", papersJsonV1 final)]
  match toCsvV1 (final.filter fun p => p.itemType != "preprint") with
  | .error e => (writes, .error e)
  | .ok pubsCsv =>
    let writes := writes ++ [("pubs.csv", pubsCsv)]
    match toCsvV1 (final.filter fun p => p.itemType == "preprint") with
    | .error e => (writes, .error e)
    | .ok preprintsCsv => (writes ++ [("preprints.csv", preprintsCsv)], .ok ())

/-- part_001 `main`: the overlap assertion fires before anything is
written; otherwise the pipeline runs. -/
def mainV1 (env : EnvV1) : List (String × String) × Except String Unit :=
  if overlapKeysV1 env = [] then pipelineV1 env
  else ([], .error "Overlap between collections")

/-! ## Concrete items used by witnesses and counterexamples -/

def baseDate : DateParts := { year := 2023, month := none, day := none }

/-- A plain journal-article item with every optional field absent. -/
def baseItem : ZoteroItem :=
  { key := "KEY1", version := 1, itemType := "journalArticle", title := "A Title",
    creators := [], abstractNote := "", institution := none, bookTitle := none,
    proceedingsTitle := none, publicationTitle := none, volume := none, issue := none,
    pages := none, series := none, seriesTitle := none, seriesText := none,
    journalAbbreviation := none, DOI := none, ISSN := none, shortTitle := none,
    url := none, date := baseDate }

def natureItem : ZoteroItem :=
  { baseItem with
    publicationTitle := some "Nature"
    volume := some "600"
    issue := some "2"
    pages := some "100-110" }

/-! ## C5: author-list formatting -/

/-- The spec-side rendering of a single creator: an organizational name
as-is; a person as the capital letters of the first name, in order and
unseparated, then a space, then the last name. -/
def renderAuthorSpec (author : Creator) : String :=
  match author with
  | .org _ name => name
  | .person _ firstName lastName =>
    String.mk (firstName.toList.filter fun c => decide ('A' ≤ c ∧ c ≤ 'Z')) ++ " " ++ lastName

/-- C5: after filtering to `"author"`-role creators and rendering each,
exactly two rendered authors join with `" and "` and any other count
with `", "`; the initials of `"Jane Ann"` are exactly `"JA"`, as the
instances for counts 1, 2 and 3 (with an editor filtered out and an
organizational author kept as-is) illustrate. -/
theorem author_join_rule (authors : List Creator) :
    (formatAuthors false authors =
      (let rendered := (authors.filter fun a => a.creatorType == "author").map renderAuthorSpec
       if rendered.length = 2 then String.intercalate " and " rendered
       else String.intercalate ", " rendered))
    ∧ capitalInitials "Jane Ann" = "JA"
    ∧ formatAuthors false
        [.person "author" "Jane Ann" "Doe", .person "author" "John" "Smith"]
        = "JA Doe and J Smith"
    ∧ formatAuthors false [.person "author" "Jane Ann" "Doe"] = "JA Doe"
    ∧ formatAuthors false
        [.org "author" "HuBMAP Consortium", .person "author" "Jane Ann" "Doe",
         .person "editor" "Ed" "Icks", .person "author" "John" "Smith"]
        = "HuBMAP Consortium, JA Doe, J Smith" := by
  refine ⟨?_, by decide, by decide, by decide, by decide⟩
  have h : formatAuthor false = renderAuthorSpec := by
    funext a
    cases a <;> rfl
  simp only [formatAuthors, h]

/-! ## C3: journal-article venue formula -/

/-- The spec-side venue formula for a journal article:
`publicationTitle [+ " " + volume] [+ "(issue)"] [+ sep + pages]` with
`sep` being `":"` when issue or volume is present and `" "` otherwise. -/
def journalVenue (publicationTitle : String) (volume issue pages : Option String) : String :=
  let s := publicationTitle
  let s := match volume with | some v => s ++ " " ++ v | none => s
  let s := match issue with | some i => s ++ "(" ++ i ++ ")" | none => s
  match pages with
  | some p => s ++ (if issue.isSome || volume.isSome then ":" else " ") ++ p
  | none => s

/-- A journal article with no venue fields except a conflicting
`proceedingsTitle`: the claimed empty venue is instead a thrown
assertion. -/
def journalNoVenueItem : ZoteroItem :=
  { baseItem with proceedingsTitle := some "NeurIPS 2024" }

/-- C3 counterexample: for a `journalArticle` with `publicationTitle`
absent the venue is not always the empty string — a present
`proceedingsTitle` trips `assert(meta.itemType === "conferencePaper")`
and formatting throws. -/
theorem journal_absent_title_throws :
    journalNoVenueItem.itemType = "journalArticle"
    ∧ journalNoVenueItem.publicationTitle = none
    ∧ formatJournalInfo false journalNoVenueItem = .error assertionError := by
  decide

/-- C3 (amended): for a `journalArticle` with a (nonempty, per
normalization) `publicationTitle` the venue follows the claimed formula,
and the Nature example renders exactly; with `publicationTitle` absent
the venue is empty provided the other venue fields
(`proceedingsTitle`, `bookTitle`, `institution`) are also absent. -/
theorem journal_venue_formula (item : ZoteroItem) (pt : String)
    (hty : item.itemType = "journalArticle")
    (hv : item.volume ≠ some "") (hi : item.issue ≠ some "") (hp : item.pages ≠ some "") :
    (item.publicationTitle = some pt → pt ≠ "" →
      formatJournalInfo false item = .ok (journalVenue pt item.volume item.issue item.pages, false))
    ∧ (item.publicationTitle = none → item.proceedingsTitle = none → item.bookTitle = none →
        item.institution = none → formatJournalInfo false item = .ok ("", true))
    ∧ formatJournalInfo false natureItem = .ok ("Nature 600(2):100-110", false) := by
  refine ⟨?_, ?_, by decide⟩
  · intro hpt hne
    rcases hvol : item.volume with _ | v <;> rcases hiss : item.issue with _ | i <;>
      rcases hpag : item.pages with _ | p <;>
      simp_all [formatJournalInfo, truthy, itWrap, bWrap, journalVenue, String.append_assoc]
  · intro hpt hproc hbook hinst
    simp_all [formatJournalInfo, truthy]

/-- C3 witness: the amended theorem applied to the Nature item. -/
theorem journal_venue_formula_witness :
    formatJournalInfo false natureItem = .ok ("Nature 600(2):100-110", false) :=
  (journal_venue_formula natureItem "Nature" (by decide) (by decide) (by decide) (by decide)).2.2

/-! ## C6: preprint venue priority -/

/-- The spec-side preprint venue resolution: probe the url for the
preprint-server needles in fixed priority order, falling back to
`"Preprint"`. -/
def preprintVenue (url : Option String) : String :=
  match url with
  | none => "Preprint"
  | some u =>
    if jsIncludes u "arxiv" then "arXiv"
    else if jsIncludes u "biorxiv" then "bioRxiv"
    else if jsIncludes u "medrxiv" then "medRxiv"
    else if jsIncludes u "osf.io" then "OSF Preprints"
    else if jsIncludes u "ssrn" then "SSRN Preprints"
    else "Preprint"

/-- A preprint whose url contains `"biorxiv"` but also `"arxiv"`
earlier in the priority chain. -/
def crossUrlItem : ZoteroItem :=
  { baseItem with
    itemType := "preprint"
    url := some "https://arxiv.org/abs/2401.0?from=biorxiv" }

def biorxivItem : ZoteroItem :=
  { baseItem with
    itemType := "preprint"
    url := some "https://www.biorxiv.org/content/10.1101/2024" }

/-- C6 counterexample: a preprint url containing `"biorxiv"` does not
always render `"bioRxiv"` — a url that also contains `"arxiv"` hits the
higher-priority branch first. -/
theorem biorxiv_not_unconditional :
    jsIncludes "https://arxiv.org/abs/2401.0?from=biorxiv" "biorxiv" = true
    ∧ formatJournalInfo false crossUrlItem = .ok ("arXiv", false) := by
  decide

/-- C6 (amended): every preprint renders the priority-ordered venue of
its url (fallback `"Preprint"`); in particular a url containing
`"biorxiv"` but not `"arxiv"` renders `"bioRxiv"` regardless of all
other fields. -/
theorem preprint_venue_priority (item : ZoteroItem) (hty : item.itemType = "preprint") :
    formatJournalInfo false item = .ok (preprintVenue item.url, false)
    ∧ ∀ u, item.url = some u → jsIncludes u "biorxiv" = true → jsIncludes u "arxiv" = false →
        formatJournalInfo false item = .ok ("bioRxiv", false) := by
  have hmain : formatJournalInfo false item = .ok (preprintVenue item.url, false) := by
    unfold formatJournalInfo
    rw [hty]
    rw [if_neg (by decide), if_pos rfl]
    rcases hu : item.url with _ | u
    · simp [urlIncludes, preprintVenue, jsIncludes, itWrap]
    · simp only [urlIncludes, preprintVenue]
      split_ifs <;> rfl
  refine ⟨hmain, ?_⟩
  intro u hu hbio harx
  rw [hmain, hu]
  simp [preprintVenue, hbio, harx]

/-- C6 witness: a bioRxiv-hosted preprint renders `"bioRxiv"`. -/
theorem preprint_venue_priority_witness :
    formatJournalInfo false biorxivItem = .ok ("bioRxiv", false) :=
  (preprint_venue_priority biorxivItem (by decide)).2
    "https://www.biorxiv.org/content/10.1101/2024" (by decide) (by decide) (by decide)

/-! ## C2: throw behaviour over recognized item types -/

def recognizedTypes : List String :=
  ["journalArticle", "preprint", "thesis", "conferencePaper", "bookSection", "report"]

/-- A recognized type carrying a venue field of a different type. -/
def confWithJournalField : ZoteroItem :=
  { baseItem with
    itemType := "conferencePaper"
    publicationTitle := some "Nature" }

def reportItem : ZoteroItem :=
  { baseItem with
    itemType := "report"
    institution := some "NIH"
    pages := some "1-10" }

/-- C2 counterexample: a recognized item type can throw — a
`conferencePaper` with a truthy `publicationTitle` fails
`assert(meta.itemType === "journalArticle")`. -/
theorem recognized_type_can_throw :
    confWithJournalField.itemType ∈ recognizedTypes
    ∧ formatJournalInfo false confWithJournalField = .error assertionError
    ∧ formatCitation confWithJournalField = .error assertionError := by
  decide

/-- C2 (amended): formatting a recognized item type does not throw
provided the first truthy venue field in check order
(`publicationTitle`, `proceedingsTitle`, `bookTitle`, `institution`)
matches its required item type; and any non-thesis non-preprint item
with no truthy venue field — recognized or not — degrades to the empty
venue with the logged diagnostic. -/
theorem recognized_types_no_throw (item : ZoteroItem)
    (_hrec : item.itemType ∈ recognizedTypes)
    (h1 : item.itemType ≠ "thesis" → item.itemType ≠ "preprint" →
      truthy item.publicationTitle = true → item.itemType = "journalArticle")
    (h2 : item.itemType ≠ "thesis" → item.itemType ≠ "preprint" →
      truthy item.publicationTitle = false → truthy item.proceedingsTitle = true →
      item.itemType = "conferencePaper")
    (h3 : item.itemType ≠ "thesis" → item.itemType ≠ "preprint" →
      truthy item.publicationTitle = false → truthy item.proceedingsTitle = false →
      truthy item.bookTitle = true → item.itemType = "bookSection")
    (h4 : item.itemType ≠ "thesis" → item.itemType ≠ "preprint" →
      truthy item.publicationTitle = false → truthy item.proceedingsTitle = false →
      truthy item.bookTitle = false → truthy item.institution = true →
      item.itemType = "report") :
    ((formatJournalInfo false item).isOk = true ∧ (formatCitation item).isOk = true)
    ∧ (item.itemType ≠ "thesis" → item.itemType ≠ "preprint" →
        truthy item.publicationTitle = false → truthy item.proceedingsTitle = false →
        truthy item.bookTitle = false → truthy item.institution = false →
        formatJournalInfo false item = .ok ("", true)) := by
  have hok : (formatJournalInfo false item).isOk = true := by
    unfold formatJournalInfo
    by_cases hth : item.itemType = "thesis"
    · simp [hth, Except.isOk, Except.toBool]
    by_cases hpr : item.itemType = "preprint"
    · simp only [if_neg hth, if_pos hpr]
      split_ifs <;> rfl
    by_cases hpub : truthy item.publicationTitle = true
    · simp [if_neg hth, if_neg hpr, hpub, h1 hth hpr hpub, Except.isOk, Except.toBool]
    replace hpub : truthy item.publicationTitle = false := by simpa using hpub
    by_cases hproc : truthy item.proceedingsTitle = true
    · simp [if_neg hth, if_neg hpr, hpub, hproc, h2 hth hpr hpub hproc, Except.isOk, Except.toBool]
    replace hproc : truthy item.proceedingsTitle = false := by simpa using hproc
    by_cases hbook : truthy item.bookTitle = true
    · simp [if_neg hth, if_neg hpr, hpub, hproc, hbook, h3 hth hpr hpub hproc hbook,
        Except.isOk, Except.toBool]
    replace hbook : truthy item.bookTitle = false := by simpa using hbook
    by_cases hinst : truthy item.institution = true
    · simp [if_neg hth, if_neg hpr, hpub, hproc, hbook, hinst,
        h4 hth hpr hpub hproc hbook hinst, Except.isOk, Except.toBool]
    replace hinst : truthy item.institution = false := by simpa using hinst
    simp [if_neg hth, if_neg hpr, hpub, hproc, hbook, hinst, Except.isOk, Except.toBool]
  refine ⟨⟨hok, ?_⟩, ?_⟩
  · rcases hfj : formatJournalInfo false item with e | v
    · rw [hfj] at hok
      simp [Except.isOk, Except.toBool] at hok
    · simp [formatCitation, formatZoteroItem, hfj, Except.map, Except.isOk, Except.toBool]
  · intro ha hb hc hd he hf
    unfold formatJournalInfo
    simp [if_neg ha, if_neg hb, hc, hd, he, hf]

/-- C2 witness: a report with an institution formats without
throwing. -/
theorem recognized_types_no_throw_witness :
    (formatJournalInfo false reportItem).isOk = true
    ∧ (formatCitation reportItem).isOk = true :=
  ⟨(recognized_types_no_throw reportItem (by decide) (by decide) (by decide) (by decide)
      (by decide)).1.1,
   (recognized_types_no_throw reportItem (by decide) (by decide) (by decide) (by decide)
      (by decide)).1.2⟩

/-! ## C4: export sort order -/

/-- The claimed sort key: the pair `(year, month-or-0)`. -/
def specSortKey (d : DateParts) : Int × Int := (d.year, d.month.getD 0)

/-- Descending lexicographic comparison of the claimed keys: `a` is no
earlier than `b`. -/
def lexGE (a b : DateParts) : Prop :=
  b.year < a.year ∨ (b.year = a.year ∧ b.month.getD 0 ≤ a.month.getD 0)

instance (a b : DateParts) : Decidable (lexGE a b) := by
  unfold lexGE
  infer_instance

/-- Strict-or-equal descending order on the synthesized JS month index,
an antisymmetric relation used to pin down concrete sort outputs. -/
def keyDescStrictOrEq (a b : ZoteroItem) : Prop :=
  jsMonthIndex b.date < jsMonthIndex a.date ∨ a = b

instance (a b : ZoteroItem) : Decidable (keyDescStrictOrEq a b) := by
  unfold keyDescStrictOrEq
  infer_instance

/-- The export-sort comparator specialized to items. -/
def itemDescLE (a b : ZoteroItem) : Bool := dateDescLE a.date b.date

theorem sortByDateDesc_eq_mergeSort (items : List ZoteroItem) :
    sortByDateDesc (fun i => i.date) items = items.mergeSort itemDescLE := rfl

/-- The month-index comparison without the NaN case: a transitive and
total surrogate that agrees with `itemDescLE` on items whose dates are
representable. -/
def itemIdxLE (a b : ZoteroItem) : Bool :=
  decide (jsMonthIndex b.date ≤ jsMonthIndex a.date)

theorem itemIdxLE_trans (a b c : ZoteroItem)
    (h1 : itemIdxLE a b = true) (h2 : itemIdxLE b c = true) :
    itemIdxLE a c = true := by
  simp only [itemIdxLE, decide_eq_true_eq] at *
  omega

theorem itemIdxLE_total (a b : ZoteroItem) :
    (itemIdxLE a b || itemIdxLE b a) = true := by
  simp only [itemIdxLE, Bool.or_eq_true, decide_eq_true_eq]
  omega

/-- `merge` only consults the comparator on pairs drawn from its two
argument lists. -/
theorem merge_congr (le₁ le₂ : α → α → Bool) :
    ∀ (l r : List α), (∀ a ∈ l, ∀ b ∈ r, le₁ a b = le₂ a b) →
      List.merge l r le₁ = List.merge l r le₂ := by
  intro l
  induction l with
  | nil =>
    intro r h
    simp
  | cons x xs ih =>
    intro r
    induction r with
    | nil =>
      intro h
      simp
    | cons y ys ihr =>
      intro h
      rw [List.cons_merge_cons, List.cons_merge_cons]
      have hxy : le₁ x y = le₂ x y := h x (List.mem_cons_self x xs) y (List.mem_cons_self y ys)
      by_cases hc : le₁ x y = true
      · rw [if_pos hc, if_pos (hxy ▸ hc)]
        rw [ih (y :: ys) fun a ha b hb => h a (List.mem_cons_of_mem x ha) b hb]
      · rw [if_neg hc, if_neg (hxy ▸ hc)]
        rw [ihr fun a ha b hb => h a ha b (List.mem_cons_of_mem y hb)]

/-- `mergeSort` only consults the comparator on pairs of list
elements. -/
theorem mergeSort_congr (le₁ le₂ : α → α → Bool) :
    ∀ (l : List α), (∀ a ∈ l, ∀ b ∈ l, le₁ a b = le₂ a b) →
      l.mergeSort le₁ = l.mergeSort le₂
  | [], _ => by simp
  | [a], _ => by simp
  | a :: b :: xs, h => by
    have h1 : (List.splitInTwo ⟨a :: b :: xs, rfl⟩).1.1.length < xs.length + 1 + 1 := by
      simp [List.splitInTwo_fst]
      omega
    have h2 : (List.splitInTwo ⟨a :: b :: xs, rfl⟩).2.1.length < xs.length + 1 + 1 := by
      simp [List.splitInTwo_snd]
      omega
    have hsub1 : ∀ c ∈ (List.splitInTwo ⟨a :: b :: xs, rfl⟩).1.1, c ∈ a :: b :: xs := by
      intro c hc
      simp only [List.splitInTwo_fst] at hc
      exact List.mem_of_mem_take hc
    have hsub2 : ∀ c ∈ (List.splitInTwo ⟨a :: b :: xs, rfl⟩).2.1, c ∈ a :: b :: xs := by
      intro c hc
      simp only [List.splitInTwo_snd] at hc
      exact List.mem_of_mem_drop hc
    rw [List.mergeSort, List.mergeSort]
    rw [mergeSort_congr le₁ le₂ (List.splitInTwo ⟨a :: b :: xs, rfl⟩).1.1
        fun c hc d hd => h c (hsub1 c hc) d (hsub1 d hd)]
    rw [mergeSort_congr le₁ le₂ (List.splitInTwo ⟨a :: b :: xs, rfl⟩).2.1
        fun c hc d hd => h c (hsub2 c hc) d (hsub2 d hd)]
    apply merge_congr
    intro c hc d hd
    exact h c (hsub1 c (List.mem_mergeSort.mp hc)) d (hsub2 d (List.mem_mergeSort.mp hd))
termination_by l => l.length

/-- December 2023: synthesized key `2023*12 + 12`. -/
def dec2023Item : ZoteroItem :=
  { baseItem with date := { year := 2023, month := some 12, day := none } }

/-- 2024 with no month: synthesized key `2024*12 + 0` — the same key. -/
def early2024Item : ZoteroItem :=
  { baseItem with
    key := "KEY2"
    date := { year := 2024, month := none, day := none } }

/-- C4 counterexample: the sort is not descending by the pair
`(year, month-or-0)` — a December 2023 item and a month-less 2024 item
have the same synthesized `new Date` value, so the stable sort keeps the
2023 item first. -/
theorem sort_not_lex_descending :
    sortByDateDesc (fun i => i.date) [dec2023Item, early2024Item]
      = [dec2023Item, early2024Item]
    ∧ ¬ List.Pairwise (fun a b => lexGE a.date b.date) [dec2023Item, early2024Item] := by
  constructor
  · exact List.mergeSort_of_sorted (by decide)
  · decide

def may2023Item : ZoteroItem :=
  { baseItem with
    key := "W1"
    date := { year := 2023, month := some 5, day := none } }

def noMonth2023Item : ZoteroItem :=
  { baseItem with
    key := "W2"
    date := { year := 2023, month := none, day := none } }

def jan2024Item : ZoteroItem :=
  { baseItem with
    key := "W3"
    date := { year := 2024, month := some 1, day := none } }

/-- The item list of the claim's worked example. -/
def exampleItems : List ZoteroItem := [may2023Item, noMonth2023Item, jan2024Item]

/-- C4 (amended): for runs whose dates are representable JS dates
(years strictly between -271821 and 275760 — outside, `new Date` is
invalid, the comparator returns NaN and the sort order is
implementation-defined), with every month in `0..11` (month 12 and
beyond overflows the synthesized `new Date` value into the following
year) and no year in `0..99` (JS maps those to `1900 + year`), the
export sort is a permutation, descending by `(year, month-or-0)`
lexicographically; items with equal `(year, month-or-0)` keep their
input order, and the claim's worked example sorts as stated. -/
theorem export_sort_correct (items : List ZoteroItem)
    (hrange : ∀ item ∈ items, -271821 < item.date.year ∧ item.date.year < 275760)
    (hyear : ∀ item ∈ items, item.date.year < 0 ∨ 99 < item.date.year)
    (hmonth : ∀ item ∈ items, ∀ m ∈ item.date.month, 0 ≤ m ∧ m ≤ 11) :
    List.Pairwise (fun a b => lexGE a.date b.date) (sortByDateDesc (fun i => i.date) items)
    ∧ (sortByDateDesc (fun i => i.date) items).Perm items
    ∧ (∀ k : Int × Int,
        (sortByDateDesc (fun i => i.date) items).filter (fun i => decide (specSortKey i.date = k))
          = items.filter (fun i => decide (specSortKey i.date = k)))
    ∧ sortByDateDesc (fun i => i.date) exampleItems
        = [jan2024Item, may2023Item, noMonth2023Item] := by
  have hkey : ∀ item ∈ items,
      jsMonthIndex item.date = item.date.year * 12 + item.date.month.getD 0
      ∧ 0 ≤ item.date.month.getD 0 ∧ item.date.month.getD 0 ≤ 11 := by
    intro it hit
    have h1 := hyear it hit
    have h2 := hmonth it hit
    refine ⟨?_, ?_, ?_⟩
    · unfold jsMonthIndex jsDateYear
      rw [if_neg (by omega)]
    · rcases hm : it.date.month with _ | m
      · simp
      · simpa using (h2 m (by simp [hm])).1
    · rcases hm : it.date.month with _ | m
      · simp
      · simpa using (h2 m (by simp [hm])).2
  have hvalid : ∀ item ∈ items, jsDateInRange item.date := by
    intro it hit
    have h1 := hrange it hit
    have h2 := hkey it hit
    unfold jsDateInRange
    rw [h2.1]
    have h3 := h2.2.1
    have h4 := h2.2.2
    omega
  have hagree : ∀ a ∈ items, ∀ b ∈ items, itemDescLE a b = itemIdxLE a b := by
    intro a ha b hb
    unfold itemDescLE dateDescLE itemIdxLE
    rw [if_pos ⟨hvalid a ha, hvalid b hb⟩]
  have hcongr : items.mergeSort itemDescLE = items.mergeSort itemIdxLE :=
    mergeSort_congr itemDescLE itemIdxLE items hagree
  rw [sortByDateDesc_eq_mergeSort, hcongr]
  refine ⟨?_, List.mergeSort_perm items itemIdxLE, ?_, ?_⟩
  · have hs : (items.mergeSort itemIdxLE).Pairwise (fun a b => itemIdxLE a b = true) :=
      List.sorted_mergeSort itemIdxLE_trans itemIdxLE_total items
    refine hs.imp_of_mem ?_
    intro a b ha hb hle
    have hka := hkey a (List.mem_mergeSort.mp ha)
    have hkb := hkey b (List.mem_mergeSort.mp hb)
    simp only [itemIdxLE, decide_eq_true_eq] at hle
    unfold lexGE
    omega
  · intro k
    set p : ZoteroItem → Bool := fun i => decide (specSortKey i.date = k) with hp
    have hmemA : ∀ a ∈ items.filter p, p a = true := fun a ha => (List.mem_filter.mp ha).2
    have hApw : (items.filter p).Pairwise (fun a b => itemIdxLE a b = true) := by
      apply List.pairwise_of_forall_mem_list
      intro a ha b hb
      have h1 := hmemA a ha
      have h2 := hmemA b hb
      simp only [hp, decide_eq_true_eq, specSortKey, Prod.ext_iff] at h1 h2
      simp only [itemIdxLE, decide_eq_true_eq, jsMonthIndex, jsDateYear]
      rw [h1.1, h2.1, h1.2, h2.2]
    have hsub : (items.filter p).Sublist (items.mergeSort itemIdxLE) :=
      List.sublist_mergeSort itemIdxLE_trans itemIdxLE_total hApw (List.filter_sublist items)
    have hsub2 : (items.filter p).Sublist ((items.mergeSort itemIdxLE).filter p) := by
      have h3 : ((items.filter p).filter p).Sublist ((items.mergeSort itemIdxLE).filter p) :=
        List.Sublist.filter p hsub
      simpa [List.filter_filter] using h3
    have hperm : ((items.mergeSort itemIdxLE).filter p).Perm (items.filter p) :=
      (List.mergeSort_perm items itemIdxLE).filter p
    exact (hsub2.eq_of_length hperm.length_eq.symm).symm
  · rw [sortByDateDesc_eq_mergeSort]
    rw [mergeSort_congr itemDescLE itemIdxLE exampleItems (by decide)]
    have hperm : (exampleItems.mergeSort itemIdxLE).Perm
        [jan2024Item, may2023Item, noMonth2023Item] :=
      (List.mergeSort_perm exampleItems itemIdxLE).trans (by decide)
    have hs : (exampleItems.mergeSort itemIdxLE).Pairwise (fun a b => itemIdxLE a b = true) :=
      List.sorted_mergeSort itemIdxLE_trans itemIdxLE_total exampleItems
    have hdist : ∀ a ∈ exampleItems, ∀ b ∈ exampleItems,
        jsMonthIndex a.date = jsMonthIndex b.date → a = b := by decide
    have hr : (exampleItems.mergeSort itemIdxLE).Pairwise keyDescStrictOrEq := by
      refine hs.imp_of_mem ?_
      intro a b ha hb hle
      have ha2 := List.mem_mergeSort.mp ha
      have hb2 := List.mem_mergeSort.mp hb
      simp only [itemIdxLE, decide_eq_true_eq] at hle
      rcases lt_or_eq_of_le hle with h | h
      · exact Or.inl h
      · exact Or.inr (hdist a ha2 b hb2 h.symm)
    have hr2 : List.Pairwise keyDescStrictOrEq [jan2024Item, may2023Item, noMonth2023Item] := by
      decide
    haveI : IsAntisymm ZoteroItem keyDescStrictOrEq := by
      constructor
      intro a b h1 h2
      rcases h1 with h1 | h1
      · rcases h2 with h2 | h2
        · exact absurd h2 (by omega)
        · exact h2.symm
      · exact h1
    exact List.eq_of_perm_of_sorted hperm hr hr2

/-- C4 witness: the amended theorem applied to the worked example. -/
theorem export_sort_correct_witness :
    List.Pairwise (fun a b => lexGE a.date b.date)
      (sortByDateDesc (fun i => i.date) exampleItems)
    ∧ sortByDateDesc (fun i => i.date) exampleItems
        = [jan2024Item, may2023Item, noMonth2023Item] :=
  ⟨(export_sort_correct exampleItems (by decide) (by decide) (by decide)).1,
   (export_sort_correct exampleItems (by decide) (by decide) (by decide)).2.2.2⟩

/-! ## C7: pagination termination -/

theorem fetchLoop_spec (pageAt : Nat → List ZoteroItem) :
    ∀ (k start : Nat) (acc : List ZoteroItem) (fuel : Nat),
      (pageAt (start + 100 * k)).length < 100 →
      (∀ j, j < k → 100 ≤ (pageAt (start + 100 * j)).length) →
      fetchLoop pageAt 100 (k + 1 + fuel) start acc
        = some (acc ++ (List.range (k + 1)).flatMap fun j =>
            (pageAt (start + 100 * j)).filter fun item => item.itemType != "note")
      ∧ fetchLoop pageAt 100 k start acc = none := by
  intro k
  induction k with
  | zero =>
    intro start acc fuel hshort hlong
    rw [Nat.mul_zero, Nat.add_zero] at hshort
    refine ⟨?_, rfl⟩
    rw [show 0 + 1 + fuel = fuel + 1 from by omega]
    simp [fetchLoop, hshort, List.range_succ]
  | succ k ih =>
    intro start acc fuel hshort hlong
    have hfirst : 100 ≤ (pageAt start).length := by
      have h := hlong 0 (by omega)
      simpa using h
    have hshort2 : (pageAt (start + 100 + 100 * k)).length < 100 := by
      have h : start + 100 + 100 * k = start + 100 * (k + 1) := by ring
      rw [h]
      exact hshort
    have hlong2 : ∀ j, j < k → 100 ≤ (pageAt (start + 100 + 100 * j)).length := by
      intro j hj
      have h : start + 100 + 100 * j = start + 100 * (j + 1) := by ring
      rw [h]
      exact hlong (j + 1) (by omega)
    have ihres := ih (start + 100)
      (acc ++ (pageAt start).filter fun item => item.itemType != "note") fuel hshort2 hlong2
    constructor
    · rw [show k + 1 + 1 + fuel = (k + 1 + fuel) + 1 from by omega]
      simp only [fetchLoop]
      rw [if_neg (by omega)]
      rw [ihres.1]
      congr 1
      rw [List.append_assoc]
      congr 1
      conv_rhs => rw [List.range_succ_eq_map, List.flatMap_cons, List.flatMap_map]
      congr 1
      refine List.flatMap_congr ?_
      intro j _
      have hj : start + 100 + 100 * j = start + 100 * Nat.succ j := by omega
      rw [hj]
    · simp only [fetchLoop]
      rw [if_neg (by omega)]
      exact ihres.2

/-- C7: the pagination loop requests pages of size 100 at offsets
0, 100, 200, ... and terminates exactly at the first page whose raw
(pre-filter) length is below 100 — even when that final page is entirely
removed by the note filter; with only `k` iterations of fuel it has not
yet finished, and for any fuel beyond `k + 1` the result is unchanged. -/
theorem pagination_terminates (pageAt : Nat → List ZoteroItem) (k : Nat)
    (hshort : (pageAt (100 * k)).length < 100)
    (hlong : ∀ j, j < k → 100 ≤ (pageAt (100 * j)).length) :
    (∀ fuel, fetchZoteroCollection pageAt (k + 1 + fuel)
        = some ((List.range (k + 1)).flatMap fun j =>
            (pageAt (100 * j)).filter fun item => item.itemType != "note"))
    ∧ fetchZoteroCollection pageAt k = none := by
  constructor
  · intro fuel
    have h := fetchLoop_spec pageAt k 0 [] fuel (by simpa using hshort)
      (by intro j hj; simpa using hlong j hj)
    simpa [fetchZoteroCollection] using h.1
  · have h := fetchLoop_spec pageAt k 0 [] 0 (by simpa using hshort)
      (by intro j hj; simpa using hlong j hj)
    exact h.2

def noteItem : ZoteroItem := { baseItem with itemType := "note" }

/-- A two-page collection: a full page of 100 items, then a short final
page consisting only of notes (all filtered out). -/
def witnessPages : Nat → List ZoteroItem :=
  fun start =>
    if start = 0 then List.replicate 100 baseItem
    else if start = 100 then List.replicate 3 noteItem
    else []

/-- C7 witness: the loop stops after the second page even though that
page contributes zero surviving items, and one iteration alone does not
finish. -/
theorem pagination_terminates_witness :
    fetchZoteroCollection witnessPages 2
      = some ((List.range 2).flatMap fun j =>
          (witnessPages (100 * j)).filter fun item => item.itemType != "note")
    ∧ fetchZoteroCollection witnessPages 1 = none
    ∧ ((List.range 2).flatMap fun j =>
          (witnessPages (100 * j)).filter fun item => item.itemType != "note")
        = List.replicate 100 baseItem := by
  refine ⟨?_, ?_, by decide⟩
  · exact (pagination_terminates witnessPages 1 (by decide) (by decide)).1 0
  · exact (pagination_terminates witnessPages 1 (by decide) (by decide)).2

/-! ## C8: DOI to PubMed map -/

theorem lookupRecord_isSome_iff (m : List (String × String)) (d : String) :
    (lookupRecord m d).isSome = true ↔ ∃ v, (d, v) ∈ m := by
  unfold lookupRecord
  rw [Option.isSome_map']
  rw [List.find?_isSome]
  constructor
  · rintro ⟨⟨k2, v⟩, hmem, hbeq⟩
    simp only [beq_iff_eq] at hbeq
    subst hbeq
    exact ⟨v, hmem⟩
  · rintro ⟨v, hmem⟩
    exact ⟨(d, v), hmem, by simp⟩

theorem upsert_isSome (m : List (String × String)) (k v d : String) :
    (lookupRecord (upsert m k v) d).isSome = true
      ↔ d = k ∨ (lookupRecord m d).isSome = true := by
  rw [lookupRecord_isSome_iff, lookupRecord_isSome_iff]
  unfold upsert
  split_ifs with h
  · constructor
    · rintro ⟨w, hw⟩
      rcases List.mem_map.mp hw with ⟨p, hp, hpe⟩
      by_cases hb : p.1 == k
      · rw [if_pos hb] at hpe
        simp only [Prod.mk.injEq] at hpe
        left
        exact hpe.1.symm
      · rw [if_neg hb] at hpe
        right
        exact ⟨w, hpe ▸ hp⟩
    · rintro (rfl | ⟨w, hw⟩)
      · rcases List.any_eq_true.mp h with ⟨p, hp, hpk⟩
        exact ⟨v, List.mem_map.mpr ⟨p, hp, by rw [if_pos hpk]⟩⟩
      · by_cases hb : d = k
        · subst hb
          rcases List.any_eq_true.mp h with ⟨p, hp, hpk⟩
          exact ⟨v, List.mem_map.mpr ⟨p, hp, by rw [if_pos hpk]⟩⟩
        · refine ⟨w, List.mem_map.mpr ⟨(d, w), hw, ?_⟩⟩
          rw [if_neg (by simp [hb])]
  · simp only [List.mem_append, List.mem_singleton]
    constructor
    · rintro ⟨w, hw | hw⟩
      · right
        exact ⟨w, hw⟩
      · left
        simp only [Prod.mk.injEq] at hw
        exact hw.1
    · rintro (rfl | ⟨w, hw⟩)
      · exact ⟨v, Or.inr rfl⟩
      · exact ⟨w, Or.inl hw⟩

theorem mem_upsert_vals (m : List (String × String)) (k v : String) :
    ∀ e ∈ upsert m k v, e ∈ m ∨ e = (k, v) := by
  intro e he
  unfold upsert at he
  split_ifs at he with h
  · rcases List.mem_map.mp he with ⟨p, hp, hpe⟩
    by_cases hb : p.1 == k
    · rw [if_pos hb] at hpe
      right
      exact hpe.symm
    · rw [if_neg hb] at hpe
      left
      exact hpe ▸ hp
  · rcases List.mem_append.mp he with h2 | h2
    · left
      exact h2
    · right
      simpa using h2

/-- The per-record update expressed through JS truthiness of `pmid`. -/
theorem addRecords_cons (m : List (String × String)) (r : NcbiRecord) (rs : List NcbiRecord) :
    addRecords m (r :: rs)
      = addRecords (if truthy r.pmid then upsert m r.doi (r.pmid.getD "") else m) rs := by
  simp only [addRecords, List.foldl_cons]
  congr 1
  rcases hr : r.pmid with _ | p
  · simp [truthy]
  · by_cases hp : p = "" <;> simp [truthy, hp]

theorem addRecords_isSome (rs : List NcbiRecord) :
    ∀ (m : List (String × String)) (d : String),
      (lookupRecord (addRecords m rs) d).isSome = true
        ↔ (lookupRecord m d).isSome = true
          ∨ ∃ r ∈ rs, r.doi = d ∧ truthy r.pmid = true := by
  induction rs with
  | nil =>
    intro m d
    simp [addRecords]
  | cons r rs ih =>
    intro m d
    rw [addRecords_cons, ih]
    by_cases ht : truthy r.pmid = true
    · rw [if_pos ht, upsert_isSome]
      constructor
      · rintro ((rfl | hs) | ⟨r2, h2, h3⟩)
        · right
          exact ⟨r, List.mem_cons_self r rs, rfl, ht⟩
        · left
          exact hs
        · right
          exact ⟨r2, List.mem_cons_of_mem r h2, h3⟩
      · rintro (hs | ⟨r2, h2, h3, h4⟩)
        · left
          right
          exact hs
        · rcases List.mem_cons.mp h2 with rfl | h5
          · left
            left
            exact h3.symm
          · right
            exact ⟨r2, h5, h3, h4⟩
    · rw [if_neg ht]
      constructor
      · rintro (hs | ⟨r2, h2, h3⟩)
        · left
          exact hs
        · right
          exact ⟨r2, List.mem_cons_of_mem r h2, h3⟩
      · rintro (hs | ⟨r2, h2, h3, h4⟩)
        · left
          exact hs
        · rcases List.mem_cons.mp h2 with rfl | h5
          · exact absurd h4 ht
          · right
            exact ⟨r2, h5, h3, h4⟩

theorem addRecords_vals (rs : List NcbiRecord) :
    ∀ (m : List (String × String)), (∀ e ∈ m, e.2 ≠ "") →
      ∀ e ∈ addRecords m rs, e.2 ≠ "" := by
  induction rs with
  | nil =>
    intro m hm
    simpa [addRecords] using hm
  | cons r rs ih =>
    intro m hm
    rw [addRecords_cons]
    apply ih
    by_cases ht : truthy r.pmid = true
    · rw [if_pos ht]
      intro e he
      rcases mem_upsert_vals m r.doi (r.pmid.getD "") e he with h2 | h2
      · exact hm e h2
      · subst h2
        rcases hr : r.pmid with _ | p
        · simp [hr, truthy] at ht
        · simp only [hr, truthy] at ht
          simpa [bne_iff_ne] using ht
    · rw [if_neg ht]
      exact hm

theorem foldAdd_isSome (service : List String → List NcbiRecord) (d : String) :
    ∀ (chunks : List (List String)) (m : List (String × String)),
      (lookupRecord (chunks.foldl (fun records batch => addRecords records (service batch)) m)
          d).isSome = true
        ↔ (lookupRecord m d).isSome = true
          ∨ ∃ batch ∈ chunks, ∃ r ∈ service batch, r.doi = d ∧ truthy r.pmid = true := by
  intro chunks
  induction chunks with
  | nil =>
    intro m
    simp
  | cons b bs ih =>
    intro m
    rw [List.foldl_cons, ih, addRecords_isSome]
    constructor
    · rintro ((hs | ⟨r, hr, h2, h3⟩) | ⟨batch, hb, hrest⟩)
      · left
        exact hs
      · right
        exact ⟨b, List.mem_cons_self b bs, r, hr, h2, h3⟩
      · right
        exact ⟨batch, List.mem_cons_of_mem b hb, hrest⟩
    · rintro (hs | ⟨batch, hb, hrest⟩)
      · left
        left
        exact hs
      · rcases List.mem_cons.mp hb with rfl | hb2
        · left
          right
          exact hrest
        · right
          exact ⟨batch, hb2, hrest⟩

theorem foldAdd_vals (service : List String → List NcbiRecord) :
    ∀ (chunks : List (List String)) (m : List (String × String)),
      (∀ e ∈ m, e.2 ≠ "") →
      ∀ e ∈ chunks.foldl (fun records batch => addRecords records (service batch)) m, e.2 ≠ "" := by
  intro chunks
  induction chunks with
  | nil =>
    intro m hm
    simpa using hm
  | cons b bs ih =>
    intro m hm
    rw [List.foldl_cons]
    exact ih _ (addRecords_vals (service b) m hm)

theorem chunkedGo_empty (batchSize : Nat) (fuel : Nat) :
    chunkedGo batchSize fuel ([] : List α) = [] := by
  cases fuel <;> rfl

theorem chunkedGo_spec (batchSize : Nat) (hbs : 0 < batchSize) :
    ∀ (fuel : Nat) (l : List α), l.length ≤ fuel →
      (chunkedGo batchSize fuel l).flatten = l
      ∧ (∀ b ∈ chunkedGo batchSize fuel l, b ≠ [] ∧ b.length ≤ batchSize)
      ∧ (∀ b ∈ (chunkedGo batchSize fuel l).dropLast, b.length = batchSize) := by
  intro fuel
  induction fuel with
  | zero =>
    intro l hl
    have hnil : l = [] := List.length_eq_zero.mp (Nat.le_zero.mp hl)
    subst hnil
    simp [chunkedGo]
  | succ fuel ih =>
    intro l hl
    match l with
    | [] => simp [chunkedGo]
    | x :: xs =>
      have hdrop : ((x :: xs).drop batchSize).length ≤ fuel := by
        simp only [List.length_drop, List.length_cons]
        simp only [List.length_cons] at hl
        omega
      have hrec := ih ((x :: xs).drop batchSize) hdrop
      have hstep : chunkedGo batchSize (fuel + 1) (x :: xs)
          = (x :: xs).take batchSize :: chunkedGo batchSize fuel ((x :: xs).drop batchSize) := rfl
      refine ⟨?_, ?_, ?_⟩
      · rw [hstep, List.flatten_cons, hrec.1]
        exact List.take_append_drop _ _
      · intro b hb
        rw [hstep] at hb
        rcases List.mem_cons.mp hb with rfl | hb2
        · constructor
          · simp only [ne_eq, List.take_eq_nil_iff]
            push_neg
            exact ⟨by omega, by simp⟩
          · simp
        · exact hrec.2.1 b hb2
      · intro b hb
        rw [hstep] at hb
        rcases hrest : chunkedGo batchSize fuel ((x :: xs).drop batchSize) with _ | ⟨c, cs⟩
        · rw [hrest] at hb
          simp at hb
        · rw [hrest] at hb
          rw [List.dropLast_cons_of_ne_nil (by simp)] at hb
          rcases List.mem_cons.mp hb with rfl | hb2
          · have hne : (x :: xs).drop batchSize ≠ [] := by
              intro hcon
              rw [hcon, chunkedGo_empty] at hrest
              exact List.noConfusion hrest
            have hlen : batchSize < (x :: xs).length := by
              by_contra hcon
              push_neg at hcon
              exact hne (List.drop_eq_nil_of_le hcon)
            rw [List.length_take]
            omega
          · exact hrec.2.2 b (hrest ▸ hb2)

/-- C8: the DOI-to-PubMed map has an entry for a DOI exactly when some
batched service response reports that DOI with a truthy (present,
nonempty) `pmid`; every stored value is nonempty (never null, never the
empty string); and the requests partition the input DOI list in order
into nonempty batches of at most 100, every non-final batch holding
exactly 100 DOIs. -/
theorem pubmed_map_contract (service : List String → List NcbiRecord) (dois : List String)
    (d : String) :
    ((lookupRecord (getPubMedIds service dois 100) d).isSome = true
      ↔ ∃ batch ∈ chunked 100 dois, ∃ r ∈ service batch,
          r.doi = d ∧ truthy r.pmid = true)
    ∧ (∀ e ∈ getPubMedIds service dois 100, e.2 ≠ "")
    ∧ (chunked 100 dois).flatten = dois
    ∧ (∀ b ∈ chunked 100 dois, b ≠ [] ∧ b.length ≤ 100)
    ∧ (∀ b ∈ (chunked 100 dois).dropLast, b.length = 100) := by
  have hspec := chunkedGo_spec 100 (by omega) dois.length dois (Nat.le_refl _)
  refine ⟨?_, ?_, hspec.1, hspec.2.1, hspec.2.2⟩
  · unfold getPubMedIds
    rw [foldAdd_isSome]
    simp [lookupRecord]
  · unfold getPubMedIds
    exact foldAdd_vals service (chunked 100 dois) [] (by simp)

/-- C8 witness: a two-DOI run where the service resolves one DOI and
reports the other without a `pmid`. -/
theorem pubmed_map_contract_witness :
    (lookupRecord
        (getPubMedIds
          (fun _ => [⟨"10.1/a", some "11111"⟩, ⟨"10.1/b", none⟩])
          ["10.1/a", "10.1/b"] 100)
        "10.1/a").isSome = true
    ∧ ∀ e ∈ getPubMedIds
          (fun _ => [⟨"10.1/a", some "11111"⟩, ⟨"10.1/b", none⟩])
          ["10.1/a", "10.1/b"] 100, e.2 ≠ "" :=
  ⟨(pubmed_map_contract (fun _ => [⟨"10.1/a", some "11111"⟩, ⟨"10.1/b", none⟩])
      ["10.1/a", "10.1/b"] "10.1/a").1.mpr
    ⟨["10.1/a", "10.1/b"], by decide, ⟨"10.1/a", some "11111"⟩, by decide, rfl, by decide⟩,
   (pubmed_map_contract (fun _ => [⟨"10.1/a", some "11111"⟩, ⟨"10.1/b", none⟩])
      ["10.1/a", "10.1/b"] "10.1/a").2.1⟩

/-! ## C9: empty optional strings normalize to absent -/

theorem maybeStringSchema_ne_empty (v : Option String) : maybeStringSchema v ≠ some "" := by
  rcases v with _ | s
  · simp [maybeStringSchema]
  · by_cases h : s = "" <;> simp [maybeStringSchema, h]

/-- C9: the schema turns an empty string in an optional textual field
into an absent value, so no accepted item carries `some ""` in any of
its fifteen optional textual fields. -/
theorem no_empty_optional_fields (raw : RawItemData) (issued : List (List Int))
    (item : ZoteroItem) (h : parseZoteroItem raw issued = some item) :
    maybeStringSchema (some "") = none
    ∧ ∀ f ∈ [item.institution, item.bookTitle, item.proceedingsTitle,
        item.publicationTitle, item.volume, item.issue, item.pages, item.series,
        item.seriesTitle, item.seriesText, item.journalAbbreviation, item.DOI,
        item.ISSN, item.shortTitle, item.url], f ≠ some "" := by
  unfold parseZoteroItem at h
  rcases hp : parseIssued issued with _ | date
  · rw [hp] at h
    simp at h
  · rw [hp] at h
    simp only [Option.map_some'] at h
    rw [Option.some_inj] at h
    subst h
    refine ⟨by decide, ?_⟩
    intro f hf
    simp only [List.mem_cons, List.not_mem_nil, or_false] at hf
    rcases hf with rfl | rfl | rfl | rfl | rfl | rfl | rfl | rfl | rfl | rfl | rfl | rfl
      | rfl | rfl | rfl <;>
      exact maybeStringSchema_ne_empty _

def rawWithEmpties : RawItemData :=
  { key := "K9", version := 3, itemType := "journalArticle", title := "T",
    creators := [], abstractNote := "",
    institution := some "", bookTitle := some "", proceedingsTitle := none,
    publicationTitle := some "Cell", volume := some "", issue := none,
    pages := some "", series := some "", seriesTitle := some "",
    seriesText := some "", journalAbbreviation := some "", DOI := some "",
    ISSN := some "", shortTitle := some "", url := some "" }

def itemOfRawWithEmpties : ZoteroItem :=
  { key := "K9", version := 3, itemType := "journalArticle", title := "T",
    creators := [], abstractNote := "", institution := none, bookTitle := none,
    proceedingsTitle := none, publicationTitle := some "Cell", volume := none,
    issue := none, pages := none, series := none, seriesTitle := none,
    seriesText := none, journalAbbreviation := none, DOI := none, ISSN := none,
    shortTitle := none, url := none,
    date := { year := 2024, month := some 4, day := none } }

/-- C9 witness: a raw record with empty strings in most optional fields
parses to an item with those fields absent. -/
theorem no_empty_optional_fields_witness :
    parseZoteroItem rawWithEmpties [[2024, 4]] = some itemOfRawWithEmpties
    ∧ ∀ f ∈ [itemOfRawWithEmpties.institution, itemOfRawWithEmpties.bookTitle,
        itemOfRawWithEmpties.proceedingsTitle, itemOfRawWithEmpties.publicationTitle,
        itemOfRawWithEmpties.volume, itemOfRawWithEmpties.issue, itemOfRawWithEmpties.pages,
        itemOfRawWithEmpties.series, itemOfRawWithEmpties.seriesTitle,
        itemOfRawWithEmpties.seriesText, itemOfRawWithEmpties.journalAbbreviation,
        itemOfRawWithEmpties.DOI, itemOfRawWithEmpties.ISSN,
        itemOfRawWithEmpties.shortTitle, itemOfRawWithEmpties.url], f ≠ some "" :=
  ⟨by decide,
   (no_empty_optional_fields rawWithEmpties [[2024, 4]] itemOfRawWithEmpties (by decide)).2⟩

/-! ## C10: empty CSV partition throws -/

def soloPubEnv : ZoteroEnv :=
  { pubs := [natureItem], preprints := [], ncbi := fun _ => [] }

/-- C10: `toCsv` on an empty item list throws the `Object.keys(rows[0])`
`TypeError`; a run whose preprint partition is empty therefore writes
`papers.json` and `pubs.csv` and then aborts the export instead of
writing a header-only `preprints.csv`. -/
theorem toCsv_empty_throws :
    toCsv [] = .error csvEmptyError
    ∧ (mainCurrent soloPubEnv).1.map Prod.fst = ["papers.json", "pubs.csv"]
    ∧ (mainCurrent soloPubEnv).2 = .error csvEmptyError := by
  have hsort : sortByDateDesc (fun item => item.date) [natureItem] = [natureItem] :=
    List.mergeSort_singleton natureItem
  refine ⟨rfl, ?_, ?_⟩
  · simp only [mainCurrent, soloPubEnv, List.append_nil]
    rw [hsort]
    decide
  · simp only [mainCurrent, soloPubEnv, List.append_nil]
    rw [hsort]
    decide

/-! ## C1: cross-collection overlap handling -/

def overlapPubItem : ZoteroItem :=
  { baseItem with
    key := "SHARED"
    publicationTitle := some "Nature" }

def overlapPreprintItem : ZoteroItem :=
  { baseItem with
    key := "SHARED"
    itemType := "preprint"
    url := some "https://www.biorxiv.org/x" }

def overlapEnv : ZoteroEnv :=
  { pubs := [overlapPubItem], preprints := [overlapPreprintItem], ncbi := fun _ => [] }

/-- C1 counterexample: the current `main` (part_003) performs no
cross-collection key check — with the same key in both collections the
run still writes all three output files and finishes cleanly. -/
theorem current_main_ignores_overlap :
    overlapPubItem.key = "SHARED" ∧ overlapPreprintItem.key = "SHARED"
    ∧ (mainCurrent overlapEnv).1.map Prod.fst = ["papers.json", "pubs.csv", "preprints.csv"]
    ∧ (mainCurrent overlapEnv).2 = .ok () := by
  have hsort : sortByDateDesc (fun item => item.date) [overlapPubItem, overlapPreprintItem]
      = [overlapPubItem, overlapPreprintItem] := List.mergeSort_of_sorted (by decide)
  refine ⟨rfl, rfl, ?_, ?_⟩
  · simp only [mainCurrent, overlapEnv, List.singleton_append]
    rw [hsort]
    decide
  · simp only [mainCurrent, overlapEnv, List.singleton_append]
    rw [hsort]
    decide

/-- C1 (amended): the keys-based `main` (part_001) aborts with the
overlap assertion, before any file is written, whenever the two fetched
key sets intersect, and proceeds into its pipeline exactly when they are
disjoint. -/
theorem overlap_assertion_gates_v1 (env : EnvV1) :
    ((∃ k, k ∈ env.pubKeys ∧ k ∈ env.preprintKeys) →
      mainV1 env = ([], .error "Overlap between collections"))
    ∧ ((∀ k ∈ env.pubKeys, k ∉ env.preprintKeys) → mainV1 env = pipelineV1 env) := by
  constructor
  · rintro ⟨k, h1, h2⟩
    unfold mainV1
    rw [if_neg]
    intro hcon
    have hmem : k ∈ overlapKeysV1 env := by
      unfold overlapKeysV1
      rw [List.mem_filter]
      exact ⟨h1, by simpa using h2⟩
    rw [hcon] at hmem
    exact List.not_mem_nil k hmem
  · intro hdisj
    unfold mainV1
    rw [if_pos]
    unfold overlapKeysV1
    rw [List.filter_eq_nil_iff]
    intro k hk
    simpa using hdisj k hk

def overlapKeysEnv : EnvV1 :=
  { pubKeys := ["SHARED", "A1"], preprintKeys := ["B1", "SHARED"],
    fetchItem := fun _ => none, ncbi := fun _ => [] }

def disjointKeysEnv : EnvV1 :=
  { pubKeys := ["A1"], preprintKeys := ["B1"],
    fetchItem := fun _ => none, ncbi := fun _ => [] }

/-- C1 witness: a shared key aborts the keys-based run with nothing
written; disjoint key sets proceed into the pipeline. -/
theorem overlap_assertion_gates_v1_witness :
    mainV1 overlapKeysEnv = ([], .error "Overlap between collections")
    ∧ mainV1 disjointKeysEnv = pipelineV1 disjointKeysEnv :=
  ⟨(overlap_assertion_gates_v1 overlapKeysEnv).1 ⟨"SHARED", by decide, by decide⟩,
   (overlap_assertion_gates_v1 disjointKeysEnv).2 (by decide)⟩

end HidivePubs
